import Mathlib

/-!
Shallow embedding of the booking-admission logic of the car-rental backend
(`main.py`, endpoint `create_booking`, together with the schema types of
`schemas.py`).  Dates follow CPython's `datetime.date`: comparison is
lexicographic on (year, month, day), subtraction goes through the proleptic
Gregorian ordinal, and `isoformat` produces zero-padded `YYYY-MM-DD`.
The MongoDB store is modelled as an explicit list of documents; the
`$lte`/`$gte` comparisons of the overlap query are byte-lexicographic
comparisons on the serialized date strings, as Mongo performs them.
-/

/-- Calendar date, the payload form produced by pydantic's `date` fields. -/
structure CalDate where
  year : Nat
  month : Nat
  day : Nat
deriving DecidableEq, Repr

/-- Gregorian leap-year test, as in CPython `datetime._is_leap`. -/
def isLeap (y : Nat) : Bool :=
  (y % 4 == 0 && y % 100 != 0) || y % 400 == 0

/-- Days in a month, CPython `datetime._days_in_month` (`_DAYS_IN_MONTH`
table plus the February leap adjustment). -/
def daysInMonth (y m : Nat) : Nat :=
  if m = 2 then (if isLeap y then 29 else 28)
  else if m = 4 ∨ m = 6 ∨ m = 9 ∨ m = 11 then 30
  else if m = 1 ∨ m = 3 ∨ m = 5 ∨ m = 7 ∨ m = 8 ∨ m = 10 ∨ m = 12 then 31
  else 0

/-- Days in the year before the given month, CPython
`datetime._days_before_month` (`_DAYS_BEFORE_MONTH` table plus the leap
adjustment for months after February). -/
def daysBeforeMonth (y m : Nat) : Nat :=
  (if m = 1 then 0 else if m = 2 then 31 else if m = 3 then 59
   else if m = 4 then 90 else if m = 5 then 120 else if m = 6 then 151
   else if m = 7 then 181 else if m = 8 then 212 else if m = 9 then 243
   else if m = 10 then 273 else if m = 11 then 304 else if m = 12 then 334
   else 0)
  + (if 2 < m then (if isLeap y then 1 else 0) else 0)

/-- Days before January 1st of the given year, CPython
`datetime._days_before_year`. -/
def daysBeforeYear (y : Nat) : Nat :=
  (y - 1) * 365 + (y - 1) / 4 - (y - 1) / 100 + (y - 1) / 400

/-- Number of days in a year. -/
def daysInYear (y : Nat) : Nat := if isLeap y then 366 else 365

/-- Proleptic Gregorian ordinal, CPython `date.toordinal` (`_ymd2ord`). -/
def toordinal (d : CalDate) : Nat :=
  daysBeforeYear d.year + daysBeforeMonth d.year d.month + d.day

/-- Strict date comparison: CPython compares dates lexicographically on
(year, month, day). -/
def dateLt (a b : CalDate) : Bool :=
  a.year < b.year ||
    (a.year == b.year &&
      (a.month < b.month || (a.month == b.month && a.day < b.day)))

/-- A calendar date that CPython's `date` constructor accepts
(`MINYEAR = 1`, `MAXYEAR = 9999`). -/
def validDate (d : CalDate) : Prop :=
  1 ≤ d.year ∧ d.year ≤ 9999 ∧ 1 ≤ d.month ∧ d.month ≤ 12 ∧
    1 ≤ d.day ∧ d.day ≤ daysInMonth d.year d.month

instance (d : CalDate) : Decidable (validDate d) := by
  unfold validDate; infer_instance

/-- ASCII digit character for a single decimal digit. -/
def digitChar (n : Nat) : Char := Char.ofNat (48 + n)

/-- Four-digit zero-padded decimal rendering (`%04d` for values up to 9999). -/
def yearDigits (y : Nat) : List Char :=
  [digitChar (y / 1000 % 10), digitChar (y / 100 % 10),
   digitChar (y / 10 % 10), digitChar (y % 10)]

/-- Two-digit zero-padded decimal rendering (`%02d` for values up to 99). -/
def twoDigits (n : Nat) : List Char :=
  [digitChar (n / 10 % 10), digitChar (n % 10)]

/-- `date.isoformat()`: the canonical zero-padded `YYYY-MM-DD` serialization
(`%04d-%02d-%02d`), written digit by digit; it agrees with CPython for every
valid date (years up to 9999). -/
def isoformat (d : CalDate) : String :=
  ⟨yearDigits d.year ++ '-' :: (twoDigits d.month ++ '-' :: twoDigits d.day)⟩

/-- Lexicographic `≤` on character lists: MongoDB's ordering on strings
(UTF-8 byte order, which agrees with code-point order). -/
def charListLe : List Char → List Char → Bool
  | [], _ => true
  | _ :: _, [] => false
  | a :: as, b :: bs => a < b || (a == b && charListLe as bs)

/-- Strict lexicographic `<` on character lists. -/
def charListLt : List Char → List Char → Bool
  | [], [] => false
  | [], _ :: _ => true
  | _ :: _, [] => false
  | a :: as, b :: bs => a < b || (a == b && charListLt as bs)

/-- MongoDB's `$lte` on two string values. -/
def strLe (a b : String) : Bool := charListLe a.data b.data

/-- Hexadecimal digit test. -/
def hexDigit (c : Char) : Bool :=
  c.isDigit || ('a' ≤ c && c ≤ 'f') || ('A' ≤ c && c ≤ 'F')

/-- Lowercase an ASCII letter, as hex digits are case-folded when an
`ObjectId`'s bytes are reconstructed from a hex string. -/
def lowerChar (c : Char) : Char :=
  if 'A' ≤ c && c ≤ 'Z' then Char.ofNat (c.toNat + 32) else c

/-- `bson.ObjectId(s)` for a string argument: accepted exactly when `s` is a
24-character hex string; the resulting id compares by its 12 raw bytes, which
we normalize as the lowercased hex string. -/
def parseObjectId (s : String) : Option String :=
  if s.length = 24 && s.data.all hexDigit then some ⟨s.data.map lowerChar⟩
  else none

/-- `bson.ObjectId.is_valid(s)`: try to construct an `ObjectId`, report
whether that succeeds. -/
def isValidObjectId (s : String) : Bool := (parseObjectId s).isSome

/-- The `Booking` pydantic model of `schemas.py` (the request payload). -/
structure Booking where
  car_id : String
  customer_name : String
  customer_email : String
  customer_phone : Option String
  start_date : CalDate
  end_date : CalDate
deriving DecidableEq, Repr

/-- A document of the `booking` collection: dates are stored in serialized
`YYYY-MM-DD` form, and the store assigns the `_id`. -/
structure StoredBooking where
  id : Nat
  car_id : String
  customer_name : String
  customer_email : String
  customer_phone : Option String
  start_date : String
  end_date : String
deriving DecidableEq, Repr

/-- The document store: the `car` collection (only the `_id` of each car
document is consulted by `create_booking`, via `find_one` on `_id`, so cars
are kept as their normalized hex ids), the `booking` collection, and the
counter producing fresh store-assigned identifiers. -/
structure Store where
  cars : List String
  bookings : List StoredBooking
  nextId : Nat
deriving DecidableEq, Repr

/-- The car-existence step of `create_booking`:
`db["car"].find_one({"_id": ObjectId(payload.car_id)}) if ObjectId.is_valid(payload.car_id) else None`. -/
def carLookup (st : Store) (s : String) : Option String :=
  if isValidObjectId s then
    match parseObjectId s with
    | some oid => st.cars.find? (fun c => c == oid)
    | none => none
  else none

/-- The same step with the possibility of the `ObjectId` constructor raising
made explicit: the `Except.error` branch is the unhandled invalid-id
exception that would escape if the constructor were reached with an invalid
string. -/
def carLookupChecked (st : Store) (s : String) : Except String (Option String) :=
  if isValidObjectId s then
    match parseObjectId s with
    | some oid => Except.ok (st.cars.find? (fun c => c == oid))
    | none => Except.error "bson.errors.InvalidId"
  else Except.ok none

/-- The filter of the overlap query, evaluated at a stored booking `b`:
`car_id == payload.car_id AND b.start_date <= new_end AND b.end_date >= new_start`
with string comparisons on the serialized dates. -/
def overlapPred (p : Booking) (b : StoredBooking) : Bool :=
  b.car_id == p.car_id && strLe b.start_date (isoformat p.end_date) &&
    strLe (isoformat p.start_date) b.end_date

/-- Two stored bookings overlap: same car and intersecting inclusive date
ranges (on the serialized, lexicographically ordered form). -/
def overlaps (b1 b2 : StoredBooking) : Bool :=
  b1.car_id == b2.car_id && strLe b1.start_date b2.end_date &&
    strLe b2.start_date b1.end_date

/-- The document inserted by a successful admission: `payload.model_dump()`
with both dates replaced by their serialized form, plus the store-assigned
id. -/
def mkDoc (p : Booking) (n : Nat) : StoredBooking :=
  ⟨n, p.car_id, p.customer_name, p.customer_email, p.customer_phone,
    isoformat p.start_date, isoformat p.end_date⟩

/-- The four error kinds of the admission check. -/
inductive AdmitError where
  | invalidRange
  | rentalTooLong
  | carNotFound
  | dateConflict
deriving DecidableEq, Repr

/-- HTTP status attached to each error by `create_booking`. -/
def AdmitError.status : AdmitError → Nat
  | .invalidRange => 400
  | .rentalTooLong => 400
  | .carNotFound => 404
  | .dateConflict => 409

/-- The `detail` string of each `HTTPException` (the `rentalTooLong` text
says "30 days" although the enforced bound is 31 inclusive days). -/
def AdmitError.detail : AdmitError → String
  | .invalidRange => "End date cannot be before start date"
  | .rentalTooLong => "Max rental length is 30 days"
  | .carNotFound => "Car not found"
  | .dateConflict => "Selected dates overlap with an existing booking for this car"

/-- Outcome of one call: the new booking's id string, or an error. -/
inductive AdmitOutcome where
  | ok (id : String)
  | err (e : AdmitError)
deriving DecidableEq, Repr

/-- Result of one `create_booking` call: the outcome, the store afterwards,
and the list of documents inserted during the call (the only store
mutations the endpoint performs). -/
structure AdmitResult where
  outcome : AdmitOutcome
  store : Store
  inserts : List StoredBooking
deriving DecidableEq, Repr

/-- `delta = (payload.end_date - payload.start_date).days + 1`: date
subtraction goes through `toordinal` and may be negative. -/
def dateDelta (p : Booking) : Int :=
  (toordinal p.end_date : Int) - (toordinal p.start_date : Int) + 1

/-- The `create_booking` endpoint of `main.py`, with its four checks in
source order followed by the insert. -/
def create_booking (p : Booking) (st : Store) : AdmitResult :=
  if dateLt p.end_date p.start_date then
    ⟨.err .invalidRange, st, []⟩
  else if dateDelta p > 31 then
    ⟨.err .rentalTooLong, st, []⟩
  else if (carLookup st p.car_id).isNone then
    ⟨.err .carNotFound, st, []⟩
  else if (st.bookings.find? (overlapPred p)).isSome then
    ⟨.err .dateConflict, st, []⟩
  else
    ⟨.ok (toString st.nextId),
      { st with bookings := st.bookings ++ [mkDoc p st.nextId],
                nextId := st.nextId + 1 },
      [mkDoc p st.nextId]⟩

/-- Run a sequence of sequential admission calls, threading the store. -/
def admitAll (ps : List Booking) (st : Store) : Store :=
  ps.foldl (fun s p => (create_booking p s).store) st

/-- The per-car exclusivity invariant: no two stored bookings overlap. -/
def conflictFree (l : List StoredBooking) : Prop :=
  l.Pairwise (fun b1 b2 => overlaps b1 b2 = false)

theorem daysInMonth_le_31 (y m : Nat) : daysInMonth y m ≤ 31 := by
  unfold daysInMonth; split_ifs <;> omega

theorem isLeap_iff (y : Nat) :
    isLeap y = true ↔ (y % 4 = 0 ∧ y % 100 ≠ 0) ∨ y % 400 = 0 := by
  unfold isLeap
  simp [Bool.or_eq_true, Bool.and_eq_true, beq_iff_eq, bne_iff_ne]

set_option maxHeartbeats 1000000 in
theorem daysBeforeYear_succ (y : Nat) (h : 1 ≤ y) :
    daysBeforeYear (y + 1) = daysBeforeYear y + daysInYear y := by
  unfold daysBeforeYear daysInYear
  by_cases hl : isLeap y = true
  · rw [if_pos hl]
    rw [isLeap_iff] at hl
    omega
  · rw [if_neg hl]
    rw [isLeap_iff] at hl
    omega

theorem daysBeforeYear_mono (y1 y2 : Nat) (h : y1 ≤ y2) :
    daysBeforeYear y1 ≤ daysBeforeYear y2 := by
  unfold daysBeforeYear
  have h4 : (y1-1) / 4 ≤ (y2-1) / 4 := Nat.div_le_div_right (by omega)
  have h100 : (y1-1) / 100 ≤ (y2-1) / 100 := Nat.div_le_div_right (by omega)
  have h400 : (y1-1) / 400 ≤ (y2-1) / 400 := Nat.div_le_div_right (by omega)
  omega

theorem daysBeforeMonth_day_le (y m d : Nat) (h1 : 1 ≤ m) (h2 : m ≤ 12)
    (hd : d ≤ daysInMonth y m) : daysBeforeMonth y m + d ≤ daysInYear y := by
  rcases Bool.eq_false_or_eq_true (isLeap y) with hl | hl <;>
    interval_cases m <;>
      simp [daysBeforeMonth, daysInMonth, daysInYear, hl] at * <;> omega

theorem daysBeforeMonth_step (y m : Nat) (h1 : 1 ≤ m) (h2 : m ≤ 11) :
    daysBeforeMonth y m + daysInMonth y m = daysBeforeMonth y (m + 1) := by
  rcases Bool.eq_false_or_eq_true (isLeap y) with hl | hl <;>
    interval_cases m <;>
      simp [daysBeforeMonth, daysInMonth, hl]

theorem daysBeforeMonth_mono (y : Nat) (m1 m2 : Nat) (h1 : 1 ≤ m1)
    (h12 : m1 ≤ m2) (h2 : m2 ≤ 12) :
    daysBeforeMonth y m1 ≤ daysBeforeMonth y m2 := by
  induction m2 with
  | zero => omega
  | succ k ih =>
    rcases Nat.lt_or_ge m1 (k + 1) with hlt | hge
    · have hk1 : 1 ≤ k := by omega
      have hs := daysBeforeMonth_step y k hk1 (by omega)
      exact le_trans (ih (by omega) (by omega)) (by omega)
    · have : m1 = k + 1 := by omega
      rw [this]

theorem daysBeforeMonth_lt (y m1 m2 d1 d2 : Nat) (h : m1 < m2) (h1 : 1 ≤ m1)
    (h2 : m2 ≤ 12) (hd1 : d1 ≤ daysInMonth y m1) (hd2 : 1 ≤ d2) :
    daysBeforeMonth y m1 + d1 < daysBeforeMonth y m2 + d2 := by
  have hs := daysBeforeMonth_step y m1 h1 (by omega)
  have hm := daysBeforeMonth_mono y (m1 + 1) m2 (by omega) (by omega) h2
  omega

theorem toordinal_lt (a b : CalDate) (ha : validDate a) (hb : validDate b)
    (h : dateLt a b = true) : toordinal a < toordinal b := by
  obtain ⟨ha1, ha2, ha3, ha4, ha5, ha6⟩ := ha
  obtain ⟨hb1, hb2, hb3, hb4, hb5, hb6⟩ := hb
  unfold dateLt at h
  simp only [Bool.or_eq_true, Bool.and_eq_true, beq_iff_eq, decide_eq_true_eq] at h
  unfold toordinal
  rcases h with hy | ⟨hy, hm | ⟨hm, hd⟩⟩
  · have hday : daysBeforeMonth a.year a.month + a.day ≤ daysInYear a.year :=
      daysBeforeMonth_day_le _ _ _ ha3 ha4 ha6
    have hsucc : daysBeforeYear (a.year + 1) = daysBeforeYear a.year + daysInYear a.year :=
      daysBeforeYear_succ _ ha1
    have hmono : daysBeforeYear (a.year + 1) ≤ daysBeforeYear b.year :=
      daysBeforeYear_mono _ _ (by omega)
    omega
  · rw [hy] at ha6 ⊢
    have := daysBeforeMonth_lt b.year a.month b.month a.day b.day hm ha3 hb4 ha6 hb5
    omega
  · rw [hy, hm]
    omega

theorem digitChar_lt_bounded : ∀ a, a < 10 → ∀ b, b < 10 →
    decide (digitChar a < digitChar b) = decide (a < b) := by decide

theorem digitChar_beq_bounded : ∀ a, a < 10 → ∀ b, b < 10 →
    (digitChar a == digitChar b) = decide (a = b) := by decide

theorem digitChar_lt_mod (a b : Nat) :
    decide (digitChar (a % 10) < digitChar (b % 10)) = decide (a % 10 < b % 10) :=
  digitChar_lt_bounded _ (Nat.mod_lt _ (by omega)) _ (Nat.mod_lt _ (by omega))

theorem digitChar_beq_mod (a b : Nat) :
    (digitChar (a % 10) == digitChar (b % 10)) = decide (a % 10 = b % 10) :=
  digitChar_beq_bounded _ (Nat.mod_lt _ (by omega)) _ (Nat.mod_lt _ (by omega))

theorem charListLt_self (l : List Char) : charListLt l l = false := by
  induction l with
  | nil => rfl
  | cons a as ih => simp [charListLt, ih, lt_irrefl]

theorem charListLe_append (xs ys l1 l2 : List Char) (h : xs.length = ys.length) :
    charListLe (xs ++ l1) (ys ++ l2) =
      (charListLt xs ys || (xs == ys && charListLe l1 l2)) := by
  induction xs generalizing ys with
  | nil =>
    cases ys with
    | nil => simp [charListLt, charListLe]
    | cons b bs => simp at h
  | cons a as ih =>
    cases ys with
    | nil => simp at h
    | cons b bs =>
      simp only [List.cons_append, charListLe, charListLt, List.append_eq]
      rw [ih bs (by simpa using h)]
      have hbeq : ((a :: as : List Char) == b :: bs) = (a == b && as == bs) := rfl
      rw [hbeq]
      cases decide (a < b) <;> cases a == b <;> cases charListLt as bs <;>
        cases as == bs <;> cases charListLe l1 l2 <;> rfl

theorem charListLe_cons_same (c : Char) (l1 l2 : List Char) :
    charListLe (c :: l1) (c :: l2) = charListLe l1 l2 := by
  simp [charListLe, lt_irrefl]

theorem yearDigits_lt (c g : Nat) (hc : c ≤ 9999) (hg : g ≤ 9999) (h : c < g) :
    charListLt (yearDigits c) (yearDigits g) = true := by
  unfold yearDigits
  simp only [charListLt, digitChar_lt_mod, digitChar_beq_mod,
    Bool.or_eq_true, Bool.and_eq_true, decide_eq_true_eq, Bool.and_false,
    Bool.or_false]
  have e1 : c / 100 / 10 = c / 1000 := by rw [Nat.div_div_eq_div_mul]
  have e2 : c / 10 / 10 = c / 100 := by rw [Nat.div_div_eq_div_mul]
  have e3 : c / 1000 / 10 = 0 := Nat.div_eq_of_lt (by omega)
  have e4 : g / 100 / 10 = g / 1000 := by rw [Nat.div_div_eq_div_mul]
  have e5 : g / 10 / 10 = g / 100 := by rw [Nat.div_div_eq_div_mul]
  have e6 : g / 1000 / 10 = 0 := Nat.div_eq_of_lt (by omega)
  omega

theorem twoDigits_lt (c g : Nat) (hc : c ≤ 99) (hg : g ≤ 99) (h : c < g) :
    charListLt (twoDigits c) (twoDigits g) = true := by
  unfold twoDigits
  simp only [charListLt, digitChar_lt_mod, digitChar_beq_mod,
    Bool.or_eq_true, Bool.and_eq_true, decide_eq_true_eq, Bool.and_false,
    Bool.or_false]
  have e1 : c / 10 / 10 = 0 := Nat.div_eq_of_lt (by omega)
  have e2 : g / 10 / 10 = 0 := Nat.div_eq_of_lt (by omega)
  omega

theorem twoDigits_le (c g : Nat) (hc : c ≤ 99) (hg : g ≤ 99) (h : c ≤ g) :
    charListLe (twoDigits c) (twoDigits g) = true := by
  unfold twoDigits
  simp only [charListLe, digitChar_lt_mod, digitChar_beq_mod,
    Bool.or_eq_true, Bool.and_eq_true, decide_eq_true_eq, Bool.and_true]
  have e1 : c / 10 / 10 = 0 := Nat.div_eq_of_lt (by omega)
  have e2 : g / 10 / 10 = 0 := Nat.div_eq_of_lt (by omega)
  omega

theorem iso_le_of_dateLe (a b : CalDate) (ha : validDate a) (hb : validDate b)
    (h : dateLt b a = false) : strLe (isoformat a) (isoformat b) = true := by
  obtain ⟨ha1, ha2, ha3, ha4, ha5, ha6⟩ := ha
  obtain ⟨hb1, hb2, hb3, hb4, hb5, hb6⟩ := hb
  have hda : a.day ≤ 31 := le_trans ha6 (daysInMonth_le_31 _ _)
  have hdb : b.day ≤ 31 := le_trans hb6 (daysInMonth_le_31 _ _)
  have hprop : ¬ (dateLt b a = true) := by rw [h]; exact Bool.false_ne_true
  unfold dateLt at hprop
  simp only [Bool.or_eq_true, Bool.and_eq_true, beq_iff_eq, decide_eq_true_eq,
    not_or, not_and, not_lt] at hprop
  obtain ⟨hy, hrest⟩ := hprop
  unfold strLe isoformat
  show charListLe (yearDigits a.year ++ '-' :: (twoDigits a.month ++ '-' :: twoDigits a.day))
    (yearDigits b.year ++ '-' :: (twoDigits b.month ++ '-' :: twoDigits b.day)) = true
  rw [charListLe_append _ _ _ _ (by simp [yearDigits])]
  rcases Nat.lt_or_ge a.year b.year with hylt | hyge
  · rw [yearDigits_lt a.year b.year (by omega) (by omega) hylt]
    rfl
  · have hyeq : a.year = b.year := by omega
    rw [hyeq, charListLt_self]
    simp only [beq_self_eq_true, Bool.true_and, Bool.false_or]
    rw [charListLe_cons_same]
    rw [charListLe_append _ _ _ _ (by simp [twoDigits])]
    have hm := hrest hyeq.symm
    obtain ⟨hmle, hdrest⟩ := hm
    rcases Nat.lt_or_ge a.month b.month with hmlt | hmge
    · rw [twoDigits_lt a.month b.month (by omega) (by omega) hmlt]
      rfl
    · have hmeq : a.month = b.month := by omega
      rw [hmeq, charListLt_self]
      simp only [beq_self_eq_true, Bool.true_and, Bool.false_or]
      rw [charListLe_cons_same]
      have hdle : a.day ≤ b.day := hdrest hmeq.symm
      exact twoDigits_le a.day b.day (by omega) (by omega) hdle

theorem create_booking_success (p : Booking) (st : Store)
    (h1 : dateLt p.end_date p.start_date = false)
    (h2 : dateDelta p ≤ 31)
    (h3 : (carLookup st p.car_id).isSome = true)
    (h4 : st.bookings.find? (overlapPred p) = none) :
    create_booking p st =
      ⟨.ok (toString st.nextId),
        { st with bookings := st.bookings ++ [mkDoc p st.nextId],
                  nextId := st.nextId + 1 },
        [mkDoc p st.nextId]⟩ := by
  unfold create_booking
  rw [if_neg (by simp [h1]), if_neg (by omega),
    if_neg (by intro hn; rw [Option.isNone_iff_eq_none] at hn; rw [hn] at h3; simp at h3),
    if_neg (by rw [h4]; simp)]

theorem create_booking_shape (p : Booking) (st : Store) :
    (∃ e, create_booking p st = ⟨.err e, st, []⟩) ∨
      create_booking p st =
        ⟨.ok (toString st.nextId),
          { st with bookings := st.bookings ++ [mkDoc p st.nextId],
                    nextId := st.nextId + 1 },
          [mkDoc p st.nextId]⟩ := by
  unfold create_booking
  split
  · exact Or.inl ⟨_, rfl⟩
  split
  · exact Or.inl ⟨_, rfl⟩
  split
  · exact Or.inl ⟨_, rfl⟩
  split
  · exact Or.inl ⟨_, rfl⟩
  · exact Or.inr rfl

theorem conflictFree_step (p : Booking) (st : Store) (h : conflictFree st.bookings) :
    conflictFree (create_booking p st).store.bookings := by
  unfold create_booking
  split
  · exact h
  split
  · exact h
  split
  · exact h
  split
  · exact h
  next h4 =>
    have hnone : st.bookings.find? (overlapPred p) = none :=
      Option.not_isSome_iff_eq_none.mp (by simpa using h4)
    have hall := List.find?_eq_none.mp hnone
    unfold conflictFree at *
    show List.Pairwise _ (st.bookings ++ [mkDoc p st.nextId])
    rw [List.pairwise_append]
    refine ⟨h, List.pairwise_singleton _ _, ?_⟩
    intro b hb d hd
    rw [List.mem_singleton] at hd
    subst hd
    have heq : overlaps b (mkDoc p st.nextId) = overlapPred p b := rfl
    rw [heq]
    exact Bool.not_eq_true _ ▸ (by simpa using hall b hb)

theorem admitAll_conflictFree (ps : List Booking) :
    ∀ st : Store, conflictFree st.bookings → conflictFree (admitAll ps st).bookings := by
  induction ps with
  | nil => intro st h; exact h
  | cons p ps ih => intro st h; exact ih _ (conflictFree_step p st h)

/-- C4: a candidate whose end date strictly precedes its start date is
rejected with `InvalidRange`, whatever the car id and the store contents. -/
theorem C4_invalid_range (p : Booking) (st : Store)
    (h : dateLt p.end_date p.start_date = true) :
    (create_booking p st).outcome = .err .invalidRange := by
  unfold create_booking
  rw [if_pos h]

theorem C4_witness :
    (create_booking ⟨"aaaaaaaaaaaaaaaaaaaaaaaa", "a", "b", none, ⟨2024, 6, 10⟩, ⟨2024, 6, 1⟩⟩
      ⟨["aaaaaaaaaaaaaaaaaaaaaaaa"], [], 0⟩).outcome = .err .invalidRange :=
  C4_invalid_range _ _ (by decide)

/-- C5 counterexample: with a malformed car id and `end_date < start_date`,
admission fails with `InvalidRange`, not `CarNotFound` — the date checks
run before the car-existence check, so "regardless of date validity" fails. -/
theorem C5_counterexample :
    isValidObjectId "zzz" = false ∧
    (create_booking ⟨"zzz", "a", "b", none, ⟨2024, 6, 10⟩, ⟨2024, 6, 1⟩⟩
      ⟨[], [], 0⟩).outcome = .err .invalidRange ∧
    (create_booking ⟨"zzz", "a", "b", none, ⟨2024, 6, 10⟩, ⟨2024, 6, 1⟩⟩
      ⟨[], [], 0⟩).outcome ≠ .err .carNotFound :=
  ⟨by decide, by decide, by decide⟩

/-- C5 (amended): once the date-order and length checks pass, a candidate
whose car id is malformed or does not resolve to a stored car fails with
`CarNotFound`. -/
theorem C5_car_not_found (p : Booking) (st : Store)
    (h1 : dateLt p.end_date p.start_date = false)
    (h2 : dateDelta p ≤ 31)
    (h3 : carLookup st p.car_id = none) :
    (create_booking p st).outcome = .err .carNotFound := by
  unfold create_booking
  rw [if_neg (by simp [h1]), if_neg (by omega), if_pos (by rw [h3]; rfl)]

theorem C5_witness :
    (create_booking ⟨"zzz", "a", "b", none, ⟨2024, 6, 1⟩, ⟨2024, 6, 10⟩⟩
      ⟨["aaaaaaaaaaaaaaaaaaaaaaaa"], [], 0⟩).outcome = .err .carNotFound :=
  C5_car_not_found _ _ (by decide) (by decide) (by decide)

/-- C3: with valid calendar dates, a candidate whose inclusive span
`(end - start).days + 1` is at most 31 is never rejected with
`RentalTooLong`, and one whose span is at least 32 always is. -/
theorem C3_length_check (p : Booking) (st : Store)
    (hs : validDate p.start_date) (he : validDate p.end_date) :
    (dateDelta p ≤ 31 → (create_booking p st).outcome ≠ .err .rentalTooLong) ∧
    (32 ≤ dateDelta p → (create_booking p st).outcome = .err .rentalTooLong) := by
  constructor
  · intro h2 hout
    unfold create_booking at hout
    split at hout
    · simp at hout
    split at hout
    · next h31 => omega
    split at hout
    · simp at hout
    split at hout
    · simp at hout
    · simp at hout
  · intro h32
    have hlt : dateLt p.end_date p.start_date = false := by
      cases hq : dateLt p.end_date p.start_date
      · rfl
      · have hor := toordinal_lt _ _ he hs hq
        unfold dateDelta at h32
        omega
    unfold create_booking
    rw [if_neg (by simp [hlt]), if_pos (by unfold dateDelta at *; omega)]

theorem C3_witness :
    (create_booking ⟨"aaaaaaaaaaaaaaaaaaaaaaaa", "a", "b", none, ⟨2024, 6, 1⟩, ⟨2024, 7, 1⟩⟩
      ⟨["aaaaaaaaaaaaaaaaaaaaaaaa"], [], 0⟩).outcome ≠ .err .rentalTooLong ∧
    (create_booking ⟨"aaaaaaaaaaaaaaaaaaaaaaaa", "a", "b", none, ⟨2024, 6, 1⟩, ⟨2024, 7, 2⟩⟩
      ⟨["aaaaaaaaaaaaaaaaaaaaaaaa"], [], 0⟩).outcome = .err .rentalTooLong :=
  ⟨(C3_length_check _ _ (by decide) (by decide)).1 (by decide),
   (C3_length_check _ _ (by decide) (by decide)).2 (by decide)⟩

/-- C1: once the date-order, length and car-existence checks pass, admission
fails with `DateConflict` exactly when the store holds a booking for the same
car id whose (serialized) start date is `<=` the candidate's serialized end
date and whose end date is `>=` the candidate's serialized start date —
inclusive bounds, so boundary-touching intervals conflict. -/
theorem C1_conflict_iff_overlap (p : Booking) (st : Store)
    (h1 : dateLt p.end_date p.start_date = false)
    (h2 : dateDelta p ≤ 31)
    (h3 : (carLookup st p.car_id).isSome = true) :
    ((create_booking p st).outcome = .err .dateConflict ↔
      ∃ b ∈ st.bookings, b.car_id = p.car_id ∧
        strLe b.start_date (isoformat p.end_date) = true ∧
        strLe (isoformat p.start_date) b.end_date = true) := by
  constructor
  · intro hout
    by_cases h4 : st.bookings.find? (overlapPred p) = none
    · rw [create_booking_success p st h1 h2 h3 h4] at hout
      simp at hout
    · have hsome : (st.bookings.find? (overlapPred p)).isSome = true := by
        cases hq : st.bookings.find? (overlapPred p)
        · exact absurd hq h4
        · rfl
      rw [List.find?_isSome] at hsome
      obtain ⟨b, hb, hpred⟩ := hsome
      unfold overlapPred at hpred
      simp only [Bool.and_eq_true, beq_iff_eq] at hpred
      exact ⟨b, hb, hpred.1.1, hpred.1.2, hpred.2⟩
  · rintro ⟨b, hb, hcar, hstart, hend⟩
    have hpred : overlapPred p b = true := by
      unfold overlapPred
      simp only [Bool.and_eq_true, beq_iff_eq]
      exact ⟨⟨hcar, hstart⟩, hend⟩
    have hsome : (st.bookings.find? (overlapPred p)).isSome = true := by
      rw [List.find?_isSome]
      exact ⟨b, hb, hpred⟩
    unfold create_booking
    rw [if_neg (by simp [h1]), if_neg (by omega),
      if_neg (by intro hn; rw [Option.isNone_iff_eq_none] at hn; rw [hn] at h3; simp at h3),
      if_pos hsome]

theorem C1_witness :
    ((create_booking
        ⟨"aaaaaaaaaaaaaaaaaaaaaaaa", "a", "b", none, ⟨2024, 6, 10⟩, ⟨2024, 6, 15⟩⟩
        ⟨["aaaaaaaaaaaaaaaaaaaaaaaa"],
         [⟨0, "aaaaaaaaaaaaaaaaaaaaaaaa", "x", "y", none, "2024-06-01", "2024-06-10"⟩],
         1⟩).outcome = .err .dateConflict ↔
      ∃ b ∈ ([⟨0, "aaaaaaaaaaaaaaaaaaaaaaaa", "x", "y", none, "2024-06-01", "2024-06-10"⟩] :
          List StoredBooking), b.car_id = "aaaaaaaaaaaaaaaaaaaaaaaa" ∧
        strLe b.start_date (isoformat ⟨2024, 6, 15⟩) = true ∧
        strLe (isoformat ⟨2024, 6, 10⟩) b.end_date = true) :=
  C1_conflict_iff_overlap _ _ (by decide) (by decide) (by decide)

/-- C2: starting from a store whose bookings are pairwise non-overlapping,
any sequence of sequential admission calls keeps them pairwise
non-overlapping; each single call (successful or not) preserves the
invariant, and a call that fails leaves the store unchanged. -/
theorem C2_invariant_preserved (st : Store) (h : conflictFree st.bookings) :
    (∀ ps : List Booking, conflictFree (admitAll ps st).bookings) ∧
    (∀ p : Booking, conflictFree (create_booking p st).store.bookings) ∧
    (∀ p : Booking, ∀ e, (create_booking p st).outcome = .err e →
      (create_booking p st).store = st) := by
  refine ⟨fun ps => admitAll_conflictFree ps st h, fun p => conflictFree_step p st h, ?_⟩
  intro p e he
  rcases create_booking_shape p st with ⟨e2, hsh⟩ | hsh
  · rw [hsh]
  · rw [hsh] at he
    simp at he

theorem C2_witness :
    conflictFree ((admitAll
      [⟨"aaaaaaaaaaaaaaaaaaaaaaaa", "a", "b", none, ⟨2024, 6, 1⟩, ⟨2024, 6, 10⟩⟩]
      ⟨["aaaaaaaaaaaaaaaaaaaaaaaa"], [], 0⟩).bookings) :=
  (C2_invariant_preserved ⟨["aaaaaaaaaaaaaaaaaaaaaaaa"], [], 0⟩ List.Pairwise.nil).1 _

/-- C6: the overlap check is scoped to the candidate's car id: if no stored
booking for that car id date-overlaps the candidate, admission succeeds,
whatever bookings exist for other cars (including ones with identical
dates). -/
theorem C6_scoped_per_car (p : Booking) (st : Store)
    (h1 : dateLt p.end_date p.start_date = false)
    (h2 : dateDelta p ≤ 31)
    (h3 : (carLookup st p.car_id).isSome = true)
    (h4 : ∀ b ∈ st.bookings, b.car_id = p.car_id →
      ¬(strLe b.start_date (isoformat p.end_date) = true ∧
        strLe (isoformat p.start_date) b.end_date = true)) :
    (create_booking p st).outcome = .ok (toString st.nextId) := by
  have h4n : st.bookings.find? (overlapPred p) = none := by
    rw [List.find?_eq_none]
    intro b hb hpred
    unfold overlapPred at hpred
    simp only [Bool.and_eq_true, beq_iff_eq] at hpred
    exact h4 b hb hpred.1.1 ⟨hpred.1.2, hpred.2⟩
  rw [create_booking_success p st h1 h2 h3 h4n]

theorem C6_witness :
    (create_booking
      ⟨"aaaaaaaaaaaaaaaaaaaaaaaa", "a", "b", none, ⟨2024, 6, 1⟩, ⟨2024, 6, 10⟩⟩
      ⟨["aaaaaaaaaaaaaaaaaaaaaaaa", "bbbbbbbbbbbbbbbbbbbbbbbb"],
       [⟨0, "bbbbbbbbbbbbbbbbbbbbbbbb", "x", "y", none, "2024-06-01", "2024-06-10"⟩],
       1⟩).outcome = .ok "1" :=
  C6_scoped_per_car _ _ (by decide) (by decide) (by decide) (by decide)

/-- C7: a successful admission inserts exactly one document, appended to the
booking collection; a failed admission inserts nothing and leaves the whole
store unchanged. -/
theorem C7_side_effects (p : Booking) (st : Store) :
    ((∃ i, (create_booking p st).outcome = .ok i) →
      (create_booking p st).inserts.length = 1 ∧
      (create_booking p st).store.bookings = st.bookings ++ (create_booking p st).inserts ∧
      (create_booking p st).store.cars = st.cars) ∧
    ((∃ e, (create_booking p st).outcome = .err e) →
      (create_booking p st).inserts = [] ∧ (create_booking p st).store = st) := by
  rcases create_booking_shape p st with ⟨e, hsh⟩ | hsh <;> rw [hsh]
  · constructor
    · rintro ⟨i, hi⟩
      simp at hi
    · intro _
      exact ⟨rfl, rfl⟩
  · constructor
    · intro _
      exact ⟨rfl, rfl, rfl⟩
    · rintro ⟨e2, he⟩
      simp at he

theorem C7_witness :
    ((create_booking
      ⟨"aaaaaaaaaaaaaaaaaaaaaaaa", "a", "b", none, ⟨2024, 6, 1⟩, ⟨2024, 6, 10⟩⟩
      ⟨["aaaaaaaaaaaaaaaaaaaaaaaa"], [], 0⟩).inserts).length = 1 :=
  ((C7_side_effects _ _).1 ⟨"0", by decide⟩).1

/-- C8: admission is not idempotent as a successful repeatable operation:
after a valid candidate is admitted, resubmitting the very same candidate
hits the "second submission now overlaps the first" case — the stored copy
of its own dates — and fails with `DateConflict`, leaving the store as it was
after the first call (so no second booking is persisted). -/
theorem C8_not_idempotent (p : Booking) (st : Store)
    (hs : validDate p.start_date) (he : validDate p.end_date)
    (h1 : dateLt p.end_date p.start_date = false)
    (h2 : dateDelta p ≤ 31)
    (h3 : (carLookup st p.car_id).isSome = true)
    (h4 : st.bookings.find? (overlapPred p) = none) :
    (create_booking p st).outcome = .ok (toString st.nextId) ∧
    (create_booking p (create_booking p st).store).outcome = .err .dateConflict ∧
    (create_booking p (create_booking p st).store).store = (create_booking p st).store := by
  have hse : strLe (isoformat p.start_date) (isoformat p.end_date) = true :=
    iso_le_of_dateLe p.start_date p.end_date hs he h1
  have hpred : overlapPred p (mkDoc p st.nextId) = true := by
    unfold overlapPred mkDoc
    simp [hse]
  have hcar2 : (carLookup
      ({ st with bookings := st.bookings ++ [mkDoc p st.nextId], nextId := st.nextId + 1 })
      p.car_id).isSome = true := h3
  have hfind : ((({ st with bookings := st.bookings ++ [mkDoc p st.nextId], nextId := st.nextId + 1 } : Store)).bookings.find? (overlapPred p)).isSome = true := by
    show ((st.bookings ++ [mkDoc p st.nextId]).find? (overlapPred p)).isSome = true
    rw [List.find?_isSome]
    exact ⟨mkDoc p st.nextId, by simp, hpred⟩
  have hsecond : create_booking p
      ({ st with bookings := st.bookings ++ [mkDoc p st.nextId], nextId := st.nextId + 1 }) =
      ⟨.err .dateConflict,
        { st with bookings := st.bookings ++ [mkDoc p st.nextId], nextId := st.nextId + 1 },
        []⟩ := by
    unfold create_booking
    rw [if_neg (by simp [h1]), if_neg (by omega), if_neg (by
      intro hn
      rw [Option.isNone_iff_eq_none] at hn
      rw [hn] at hcar2
      simp at hcar2), if_pos hfind]
  rw [create_booking_success p st h1 h2 h3 h4]
  refine ⟨rfl, ?_, ?_⟩
  · show (create_booking p
      ({ st with bookings := st.bookings ++ [mkDoc p st.nextId], nextId := st.nextId + 1 })).outcome
      = .err .dateConflict
    rw [hsecond]
  · show (create_booking p
      ({ st with bookings := st.bookings ++ [mkDoc p st.nextId], nextId := st.nextId + 1 })).store
      = { st with bookings := st.bookings ++ [mkDoc p st.nextId], nextId := st.nextId + 1 }
    rw [hsecond]

theorem C8_witness :
    (create_booking
      ⟨"aaaaaaaaaaaaaaaaaaaaaaaa", "a", "b", none, ⟨2024, 6, 1⟩, ⟨2024, 6, 10⟩⟩
      ⟨["aaaaaaaaaaaaaaaaaaaaaaaa"], [], 0⟩).outcome = .ok "0" ∧
    (create_booking
      ⟨"aaaaaaaaaaaaaaaaaaaaaaaa", "a", "b", none, ⟨2024, 6, 1⟩, ⟨2024, 6, 10⟩⟩
      (create_booking
        ⟨"aaaaaaaaaaaaaaaaaaaaaaaa", "a", "b", none, ⟨2024, 6, 1⟩, ⟨2024, 6, 10⟩⟩
        ⟨["aaaaaaaaaaaaaaaaaaaaaaaa"], [], 0⟩).store).outcome = .err .dateConflict :=
  ⟨(C8_not_idempotent _ _ (by decide) (by decide) (by decide) (by decide) (by decide)
      (by decide)).1,
   (C8_not_idempotent _ _ (by decide) (by decide) (by decide) (by decide) (by decide)
      (by decide)).2.1⟩

/-- C9: a fully valid admission inserts exactly the serialized document —
the candidate's fields with both dates in canonical zero-padded `YYYY-MM-DD`
form — appends it to the booking collection, and returns the store-assigned
identifier of that newly inserted document. -/
theorem C9_persists_serialized (p : Booking) (st : Store)
    (h1 : dateLt p.end_date p.start_date = false)
    (h2 : dateDelta p ≤ 31)
    (h3 : (carLookup st p.car_id).isSome = true)
    (h4 : st.bookings.find? (overlapPred p) = none) :
    (create_booking p st).inserts = [mkDoc p st.nextId] ∧
    (create_booking p st).store.bookings = st.bookings ++ [mkDoc p st.nextId] ∧
    (mkDoc p st.nextId).start_date = isoformat p.start_date ∧
    (mkDoc p st.nextId).end_date = isoformat p.end_date ∧
    (mkDoc p st.nextId).car_id = p.car_id ∧
    (mkDoc p st.nextId).customer_name = p.customer_name ∧
    (mkDoc p st.nextId).customer_email = p.customer_email ∧
    (mkDoc p st.nextId).customer_phone = p.customer_phone ∧
    (mkDoc p st.nextId).id = st.nextId ∧
    (create_booking p st).outcome = .ok (toString (mkDoc p st.nextId).id) := by
  rw [create_booking_success p st h1 h2 h3 h4]
  exact ⟨rfl, rfl, rfl, rfl, rfl, rfl, rfl, rfl, rfl, rfl⟩

theorem C9_witness :
    (create_booking
      ⟨"aaaaaaaaaaaaaaaaaaaaaaaa", "a", "b", none, ⟨2024, 6, 1⟩, ⟨2024, 6, 10⟩⟩
      ⟨["aaaaaaaaaaaaaaaaaaaaaaaa"], [], 5⟩).inserts =
      [⟨5, "aaaaaaaaaaaaaaaaaaaaaaaa", "a", "b", none, "2024-06-01", "2024-06-10"⟩] :=
  (C9_persists_serialized _ _ (by decide) (by decide) (by decide) (by decide)).1

/-- C10: the car-existence step never surfaces an identifier-parse error:
the `ObjectId` constructor is reached only behind the `is_valid` guard, so
the guarded lookup always returns a plain result, and a malformed car id
resolves to `none` (the `CarNotFound` branch) rather than an exception. -/
theorem C10_no_parse_error (st : Store) (s : String) :
    carLookupChecked st s = Except.ok (carLookup st s) ∧
    (isValidObjectId s = false → carLookup st s = none) := by
  constructor
  · unfold carLookupChecked carLookup
    by_cases hv : isValidObjectId s = true
    · rw [if_pos hv, if_pos hv]
      cases hp : parseObjectId s
      · unfold isValidObjectId at hv
        rw [hp] at hv
        simp at hv
      · rfl
    · rw [if_neg hv, if_neg hv]
  · intro hv
    unfold carLookup
    rw [if_neg (by simp [hv])]

theorem C10_witness :
    carLookup ⟨["aaaaaaaaaaaaaaaaaaaaaaaa"], [], 0⟩ "not-a-valid-object-id" = none :=
  (C10_no_parse_error ⟨["aaaaaaaaaaaaaaaaaaaaaaaa"], [], 0⟩ "not-a-valid-object-id").2
    (by decide)
